import Mathlib

/-!
Verification development for the `log_helper` logging pipeline.

The Python module builds an asynchronous, process-wide logging pipeline:
producers enqueue log records into a central multiprocessing queue, a single
`QueueListener` thread drains the queue and fans each record out to a
`RouterHandler` (one rotating file sink per stream name, lazily created) and
an optional console handler.  Files rotate on a dual trigger (time boundary
crossed, or projected post-write size reaching `maxBytes`) with bounded
retention of backups.

The definitions below are a shallow embedding of that code: machine state is
explicit, sizes are natural numbers of UTF-8 bytes, the queue is the list of
enqueued records in arrival order, and the `TimedRotatingFileHandler`
behaviour inherited from the standard library (rollover decision, backup
naming by the time-period suffix, deletion of oldest backups) is embedded
alongside the subclass code in `log_helper.py`.
-/

namespace LogHelperModel

/-- Custom VERBOSE level installed by the module (below DEBUG). -/
def VERBOSE_LEVEL : Nat := 5

/-- Standard python logging level DEBUG. -/
def DEBUG_LEVEL : Nat := 10

/-- Standard python logging level INFO. -/
def INFO_LEVEL : Nat := 20

/-- Standard python logging level WARNING. -/
def WARNING_LEVEL : Nat := 30

/-- Standard python logging level ERROR. -/
def ERROR_LEVEL : Nat := 40

/-- Standard python logging level CRITICAL. -/
def CRITICAL_LEVEL : Nat := 50

/-- Configuration of a `SizeAndTimeRotatingFileHandler`:
`whenInterval` is the rotation interval in seconds (86400 for
`when="midnight"`, `interval=1`), `backupCount` and `maxBytes` are the
constructor arguments of the same names. -/
structure SinkConfig where
  whenInterval : Nat
  backupCount : Nat
  maxBytes : Nat
  deriving DecidableEq

/-- State of one rotating file sink: `rolloverAt` is the next time boundary
(as in `TimedRotatingFileHandler.rolloverAt`), `contents` the lines written
to the active file since it was opened, and `backups` the backup files on
disk, keyed by the time-period tag that `doRollover` embeds in the backup
file name (`rolloverAt - interval` formatted with the period suffix), kept
in ascending tag order. -/
structure SinkState where
  rolloverAt : Nat
  contents : List String
  backups : List (Nat × List String)
  deriving DecidableEq

/-- Number of bytes a record adds to the file:
`len((self.format(record) + "\n").encode(...))`. -/
def lineBytes (line : String) : Nat := line.utf8ByteSize + 1

/-- Size in bytes of the active file (`os.stat(self.baseFilename).st_size`
after flushing): each written line plus its terminator. -/
def fileSize (contents : List String) : Nat := (contents.map lineBytes).sum

/-- `SizeAndTimeRotatingFileHandler.shouldRollover`: the inherited time
condition (`int(time.time()) >= self.rolloverAt`) is evaluated first, then
the size condition
`self.maxBytes > 0 and (cur_size + len(msg) >= self.maxBytes)`;
the result is `time_cond or size_cond`. -/
def shouldRollover (cfg : SinkConfig) (s : SinkState) (now : Nat) (line : String) : Bool :=
  let time_cond := decide (s.rolloverAt ≤ now)
  let cur_size := fileSize s.contents
  let size_cond := decide (0 < cfg.maxBytes) && decide (cfg.maxBytes ≤ cur_size + lineBytes line)
  time_cond || size_cond

/-- Next interval boundary strictly after `now`
(`computeRollover` followed by the `while newRolloverAt <= currentTime`
adjustment in `TimedRotatingFileHandler.doRollover`). -/
def nextBoundary (now interval : Nat) : Nat := (now / interval + 1) * interval

/-- Drop any backup already carrying the given time-period tag
(`if os.path.exists(dfn): os.remove(dfn)` in `doRollover` -- the new backup
silently replaces an existing file of the same name). -/
def removeTag (tag : Nat) (bs : List (Nat × List String)) : List (Nat × List String) :=
  bs.filter (fun b => b.1 != tag)

/-- `TimedRotatingFileHandler.doRollover` as inherited by the subclass:
rename the active file to a backup named by the period tag
`rolloverAt - interval` (overwriting an existing backup of the same name),
then, when `backupCount > 0`, delete the oldest backups until at most
`backupCount` remain (`getFilesToDelete` sorts the matching files and
deletes the oldest), open a fresh active file, and advance `rolloverAt`
past the current time. -/
def doRollover (cfg : SinkConfig) (s : SinkState) (now : Nat) : SinkState :=
  let tag := s.rolloverAt - cfg.whenInterval
  let bs := removeTag tag s.backups ++ [(tag, s.contents)]
  let bs := if 0 < cfg.backupCount then bs.drop (bs.length - cfg.backupCount) else bs
  { rolloverAt := nextBoundary now cfg.whenInterval
    contents := []
    backups := bs }

/-- `BaseRotatingHandler.emit` specialised to the subclass: if
`shouldRollover` fires, perform `doRollover`, then append the formatted
record plus terminator to the (possibly fresh) active file. -/
def sinkWrite (cfg : SinkConfig) (s : SinkState) (now : Nat) (line : String) : SinkState :=
  let s1 := if shouldRollover cfg s now line then doRollover cfg s now else s
  { s1 with contents := s1.contents ++ [line] }

/-- C1: on every write, rotation is decided by evaluating the time trigger
and the size trigger independently: with a positive configured maximum the
sink rotates exactly when the time boundary has been reached or
`cur_size + len(record bytes) >= maxBytes`; when rotation fires the record
is the sole line of the freshly opened file, otherwise it is appended to
the current file. -/
theorem claim_C1_dual_trigger_rotation (cfg : SinkConfig) (s : SinkState) (now : Nat)
    (line : String) (hmax : 0 < cfg.maxBytes) :
    (shouldRollover cfg s now line
        = (decide (s.rolloverAt ≤ now)
            || decide (cfg.maxBytes ≤ fileSize s.contents + lineBytes line)))
    ∧ (shouldRollover cfg s now line = true →
        (sinkWrite cfg s now line).contents = [line])
    ∧ (shouldRollover cfg s now line = false →
        (sinkWrite cfg s now line).contents = s.contents ++ [line]) := by
  refine ⟨?_, ?_, ?_⟩
  · simp [shouldRollover, hmax]
  · intro h
    simp [sinkWrite, h, doRollover]
  · intro h
    simp [sinkWrite, h]

/-- Witness for C1: with `maxBytes = 10` and 5 bytes already in the file, a
record of 11 bytes triggers a size rotation and lands alone in the fresh
file, while a 2-byte record does not rotate and is appended. -/
theorem claim_C1_dual_trigger_rotation_witness :
    (sinkWrite ⟨86400, 30, 10⟩ ⟨86400, ["abcd"], []⟩ 100 "0123456789").contents
      = ["0123456789"]
    ∧ (sinkWrite ⟨86400, 30, 10⟩ ⟨86400, ["abcd"], []⟩ 100 "x").contents
      = ["abcd", "x"] :=
  ⟨(claim_C1_dual_trigger_rotation ⟨86400, 30, 10⟩ ⟨86400, ["abcd"], []⟩ 100 "0123456789"
      (by decide)).2.1 (by decide),
   (claim_C1_dual_trigger_rotation ⟨86400, 30, 10⟩ ⟨86400, ["abcd"], []⟩ 100 "x"
      (by decide)).2.2 (by decide)⟩

/-- Retention K = 2, daily interval, size limit 10 bytes. -/
def c2cfg : SinkConfig := ⟨86400, 2, 10⟩

/-- A 12-byte record: every write projects past `maxBytes` and rotates. -/
def c2line : String := "0123456789ab"

/-- Fresh sink opened at time 0 on day 0; next boundary is 86400. -/
def c2s0 : SinkState := ⟨86400, [], []⟩

/-- State after the first same-day size-triggered write. -/
def c2s1 : SinkState := sinkWrite c2cfg c2s0 100 c2line

/-- State after the second same-day size-triggered write. -/
def c2s2 : SinkState := sinkWrite c2cfg c2s1 200 c2line

/-- State after the third same-day size-triggered write. -/
def c2s3 : SinkState := sinkWrite c2cfg c2s2 300 c2line

/-- C2 fails on the code: with `backupCount = 2`, three size-triggered
rotations within the same day (same time-period suffix) leave exactly one
backup on disk, not two -- each rollover reuses the same backup file name
and `doRollover` removes the existing backup before renaming, so same-day
backups overwrite each other. -/
theorem claim_C2_retention_failing_input_eval :
    shouldRollover c2cfg c2s0 100 c2line = true
    ∧ shouldRollover c2cfg c2s1 200 c2line = true
    ∧ shouldRollover c2cfg c2s2 300 c2line = true
    ∧ c2s3.backups.length = 1 := by decide

/-- One entry of `RouterHandler._handlers`: the sink's backing file path
(`os.path.join(self.log_dir, f"{logger_name}.log")`) plus its rotation
state. -/
structure FileSink where
  path : String
  sink : SinkState
  deriving DecidableEq

/-- `RouterHandler` state: constructor arguments and the `_handlers`
dictionary (association list keyed by logger name; most recent insertion
first, lookup semantics only). All accesses in the source run under
`self._lock`, so the sequential model below is the serialization the lock
enforces. -/
structure RouterState where
  fmt : String
  datefmt : String
  log_dir : String
  cfg : SinkConfig
  handlers : List (String × FileSink)
  deriving DecidableEq

/-- `RouterHandler.__init__`: store the configuration, start with an empty
handler dictionary. -/
def routerInit (fmt datefmt log_dir : String) (cfg : SinkConfig) : RouterState :=
  ⟨fmt, datefmt, log_dir, cfg, []⟩

/-- `RouterHandler._get_or_create` (body of the `with self._lock:` block):
return the cached handler for the name if present; otherwise create a
`SizeAndTimeRotatingFileHandler` on `log_dir/<name>.log`, publish it in the
dictionary and return it. -/
def getOrCreate (r : RouterState) (nm : String) (now : Nat) : RouterState × FileSink :=
  match r.handlers.lookup nm with
  | some h => (r, h)
  | none =>
      let filepath := r.log_dir ++ "/" ++ nm ++ ".log"
      let h : FileSink := ⟨filepath, ⟨nextBoundary now r.cfg.whenInterval, [], []⟩⟩
      ({ r with handlers := (nm, h) :: r.handlers }, h)

/-- A serialized sequence of `_get_or_create` calls (name, time of call). -/
def resolveAll (r : RouterState) : List (String × Nat) → RouterState
  | [] => r
  | (nm, now) :: rest => resolveAll (getOrCreate r nm now).1 rest

theorem getOrCreate_log_dir (r : RouterState) (nm : String) (now : Nat) :
    ((getOrCreate r nm now).1).log_dir = r.log_dir := by
  cases h : r.handlers.lookup nm <;> simp [getOrCreate, h]

theorem lookup_none_not_mem_keys (l : List (String × FileSink)) (nm : String)
    (h : l.lookup nm = none) : ¬ nm ∈ l.map Prod.fst := by
  induction l with
  | nil => simp
  | cons p t ih =>
      obtain ⟨k, v⟩ := p
      by_cases hk : nm = k
      · subst hk
        simp [List.lookup] at h
      · have hb : (nm == k) = false := beq_eq_false_iff_ne.mpr hk
        simp only [List.lookup, hb] at h
        simp [hk, ih h]

theorem getOrCreate_stable (r : RouterState) (nm k : String) (now : Nat) (h : FileSink)
    (hk : r.handlers.lookup k = some h) :
    ((getOrCreate r nm now).1).handlers.lookup k = some h := by
  cases hnm : r.handlers.lookup nm with
  | some h2 => simpa [getOrCreate, hnm] using hk
  | none =>
      have hne : (k == nm) = false := by
        cases hkn : (k == nm) with
        | false => rfl
        | true =>
            have hkeq : k = nm := eq_of_beq hkn
            rw [hkeq, hnm] at hk
            cases hk
      simp [getOrCreate, hnm, List.lookup, hne, hk]

theorem resolveAll_stable (r : RouterState) (calls : List (String × Nat))
    (k : String) (h : FileSink) (hk : r.handlers.lookup k = some h) :
    (resolveAll r calls).handlers.lookup k = some h := by
  induction calls generalizing r with
  | nil => simpa [resolveAll] using hk
  | cons c rest ih =>
      obtain ⟨nm, now⟩ := c
      exact ih _ (getOrCreate_stable r nm k now h hk)

/-- Invariant maintained by the router: the log directory is fixed, keys
are unique, and every cached handler's path is derived from its name. -/
def RouterInv (dir : String) (r : RouterState) : Prop :=
  r.log_dir = dir
  ∧ (r.handlers.map Prod.fst).Nodup
  ∧ ∀ nm h, r.handlers.lookup nm = some h → h.path = dir ++ "/" ++ nm ++ ".log"

theorem getOrCreate_inv (dir : String) (r : RouterState) (nm : String) (now : Nat)
    (hr : RouterInv dir r) : RouterInv dir ((getOrCreate r nm now).1) := by
  obtain ⟨hdir, hnd, hpath⟩ := hr
  cases hnm : r.handlers.lookup nm with
  | some h => simpa [getOrCreate, hnm] using ⟨hdir, hnd, hpath⟩
  | none =>
      refine ⟨by simp [getOrCreate, hnm, hdir], ?_, ?_⟩
      · simp only [getOrCreate, hnm, List.map_cons]
        exact List.Nodup.cons (lookup_none_not_mem_keys _ _ hnm) hnd
      · intro k h hk
        simp only [getOrCreate, hnm] at hk
        by_cases hkn : k = nm
        · subst hkn
          simp [List.lookup] at hk
          simp [← hk, hdir]
        · have hb : (k == nm) = false := beq_eq_false_iff_ne.mpr hkn
          simp only [List.lookup, hb] at hk
          exact hpath k h hk

theorem resolveAll_inv (dir : String) (r : RouterState) (calls : List (String × Nat))
    (hr : RouterInv dir r) : RouterInv dir (resolveAll r calls) := by
  induction calls generalizing r with
  | nil => simpa [resolveAll] using hr
  | cons c rest ih =>
      obtain ⟨nm, now⟩ := c
      exact ih _ (getOrCreate_inv dir r nm now hr)

/-- C3: starting the router empty and running any serialized sequence of
`_get_or_create` calls (the lock serializes concurrent first resolutions),
the handler dictionary never holds two entries for one stream name, every
cached sink for a name is backed by `log_dir/<name>.log`, and once a sink
exists for a name no later sequence of calls removes or replaces it. -/
theorem claim_C3_router_unique_stable_sink (dir fmt datefmt : String) (cfg : SinkConfig)
    (calls : List (String × Nat)) (nm : String) (h : FileSink)
    (hlk : (resolveAll (routerInit fmt datefmt dir cfg) calls).handlers.lookup nm = some h) :
    ((resolveAll (routerInit fmt datefmt dir cfg) calls).handlers.map Prod.fst).Nodup
    ∧ h.path = dir ++ "/" ++ nm ++ ".log"
    ∧ ∀ rest,
        (resolveAll (resolveAll (routerInit fmt datefmt dir cfg) calls) rest).handlers.lookup nm
          = some h := by
  have hinv : RouterInv dir (resolveAll (routerInit fmt datefmt dir cfg) calls) :=
    resolveAll_inv dir _ calls ⟨rfl, by simp [routerInit], by simp [routerInit, List.lookup]⟩
  exact ⟨hinv.2.1, hinv.2.2 nm h hlk, fun rest => resolveAll_stable _ rest nm h hlk⟩

/-- The sink the router creates for stream `svc` at time 0 in `logs`. -/
def c3sink : FileSink := ⟨"logs" ++ "/" ++ "svc" ++ ".log", ⟨86400, [], []⟩⟩

/-- Witness for C3: after resolving `svc` once, the key list is duplicate
free, the sink is backed by `logs/svc.log`, and two further calls (one for
`svc`, one for a new stream) leave the `svc` entry untouched. -/
theorem claim_C3_router_unique_stable_sink_witness :
    ((resolveAll (routerInit "f" "d" "logs" ⟨86400, 30, 10⟩) [("svc", 0)]).handlers.map
        Prod.fst).Nodup
    ∧ c3sink.path = "logs" ++ "/" ++ "svc" ++ ".log"
    ∧ (resolveAll (resolveAll (routerInit "f" "d" "logs" ⟨86400, 30, 10⟩) [("svc", 0)])
        [("svc", 5), ("other", 6)]).handlers.lookup "svc" = some c3sink := by
  have h := claim_C3_router_unique_stable_sink "logs" "f" "d" ⟨86400, 30, 10⟩
    [("svc", 0)] "svc" c3sink (by decide)
  exact ⟨h.1, h.2.1, h.2.2 [("svc", 5), ("other", 6)]⟩

/-- One log record as it travels through the queue: producer identity,
logger (stream) name, numeric level, message. -/
structure Ev where
  producerId : Nat
  stream : String
  levelno : Nat
  msg : String
  deriving DecidableEq

/-- One step of the `QueueListener` monitor thread handling one record: the
router delivers it to the file of the record's stream name, appending it
after everything already written there. -/
def monitorStep (files : String → List Ev) (e : Ev) : String → List Ev :=
  fun st => if e.stream == st then files st ++ [e] else files st

/-- The monitor thread draining the queue `q` (records in arrival order)
starting from empty files. -/
def monitorLoop (q : List Ev) : String → List Ev :=
  q.foldl monitorStep (fun _ => [])

theorem foldl_monitorStep (q : List Ev) (acc : String → List Ev) (st : String) :
    (q.foldl monitorStep acc) st = acc st ++ q.filter (fun e => e.stream == st) := by
  induction q generalizing acc with
  | nil => simp
  | cons e t ih =>
      rw [List.foldl_cons, ih]
      cases hb : (e.stream == st) <;> simp [monitorStep, hb]

/-- C4: the records a single producer contributed to a stream's file appear
there in exactly the relative order those records occupy in the central
backlog -- which, the backlog being a FIFO queue, is the order the producer
emitted them. -/
theorem claim_C4_fifo_per_producer (q : List Ev) (p : Nat) (st : String) :
    (monitorLoop q st).filter (fun e => e.producerId == p)
      = (q.filter (fun e => e.producerId == p)).filter (fun e => e.stream == st) := by
  rw [monitorLoop, foldl_monitorStep]
  simp only [List.nil_append, List.filter_filter]
  exact List.filter_congr (fun e _ => by rw [Bool.and_comm])

/-- `Logger.isEnabledFor` for a logger whose level is `loggerLevel`
(`manager.disable` is 0): a record of level `lvl` passes iff
`lvl >= loggerLevel`. Both `VerboseLogger.verbose` and the standard
`Logger.debug`/`info`/... wrap their body in this check. -/
def isEnabledFor (loggerLevel lvl : Nat) : Bool := decide (loggerLevel ≤ lvl)

/-- The record envelope a logging call constructs: `none` when the level
check fails (the record is never built). -/
def recordMade (loggerLevel : Nat) (e : Ev) : Option Ev :=
  if isEnabledFor loggerLevel e.levelno then some e else none

/-- A producer-side logging call: if enabled, build the record and hand it
to the `QueueHandler`, which appends it to the central queue; otherwise do
nothing. -/
def logCall (loggerLevel : Nat) (q : List Ev) (e : Ev) : List Ev :=
  if isEnabledFor loggerLevel e.levelno then q ++ [e] else q

/-- C6: a logging call whose level is below the logger's configured minimum
is a no-op: no record envelope is constructed, the queue is unchanged, and
every stream's file is unchanged after the dispatcher drains the queue. -/
theorem claim_C6_below_min_level_noop (loggerLevel : Nat) (q : List Ev) (e : Ev)
    (h : e.levelno < loggerLevel) :
    recordMade loggerLevel e = none
    ∧ logCall loggerLevel q e = q
    ∧ ∀ st, monitorLoop (logCall loggerLevel q e) st = monitorLoop q st := by
  have hb : isEnabledFor loggerLevel e.levelno = false := by
    simp only [isEnabledFor, decide_eq_false_iff_not]
    omega
  exact ⟨by simp [recordMade, hb], by simp [logCall, hb],
    fun st => by simp [logCall, hb]⟩

/-- A DEBUG-level record for stream `svc`. -/
def c6ev : Ev := ⟨1, "svc", DEBUG_LEVEL, "details"⟩

/-- Witness for C6: a DEBUG record against a minimum level of INFO builds
no envelope, enqueues nothing and leaves the `svc` file empty. -/
theorem claim_C6_below_min_level_noop_witness :
    recordMade INFO_LEVEL c6ev = none
    ∧ logCall INFO_LEVEL [] c6ev = []
    ∧ monitorLoop (logCall INFO_LEVEL [] c6ev) "svc" = monitorLoop [] "svc" := by
  have h := claim_C6_below_min_level_noop INFO_LEVEL [] c6ev (by decide)
  exact ⟨h.1, h.2.1, h.2.2 "svc"⟩

/-- The record attributes the two configured format strings reference. -/
structure FRecord where
  asctime : String
  processName : String
  threadName : String
  levelname : String
  name : String
  message : String
  deriving DecidableEq

/-- Value substituted for a `%(<key>)s` directive. -/
def fieldValue (r : FRecord) (key : List Char) : List Char :=
  if key = "asctime".data then r.asctime.data
  else if key = "processName".data then r.processName.data
  else if key = "threadName".data then r.threadName.data
  else if key = "levelname".data then r.levelname.data
  else if key = "name".data then r.name.data
  else if key = "message".data then r.message.data
  else []

/-- Scan a `%(`-opened directive: collect the key up to `)`, require the
`s` conversion, and return the key with the remaining format text. -/
def splitKey : List Char → Option (List Char × List Char)
  | [] => none
  | ')' :: 's' :: rest => some ([], rest)
  | ')' :: _ => none
  | c :: rest =>
      match splitKey rest with
      | some (k, tail) => some (c :: k, tail)
      | none => none

/-- Python `%`-style interpolation restricted to `%(<key>)s` directives, as
`logging.Formatter` applies the configured format string to a record; other
characters are copied verbatim. Fuel is the length of the format text. -/
def interpAux : Nat → List Char → FRecord → List Char
  | 0, _, _ => []
  | _ + 1, [], _ => []
  | fuel + 1, '%' :: '(' :: rest, r =>
      match splitKey rest with
      | some (k, tail) => fieldValue r k ++ interpAux fuel tail r
      | none => '%' :: interpAux fuel ('(' :: rest) r
  | fuel + 1, c :: rest, r => c :: interpAux fuel rest r

/-- `logging.Formatter(fmt).format(record)` for the format strings below. -/
def formatRecord (fmt : String) (r : FRecord) : String :=
  ⟨interpAux fmt.data.length fmt.data r⟩

/-- The default file format string (`fmt` in `_LogBus.start` and
`LogHelper._defaults`). -/
def file_fmt : String :=
  "[%(asctime)s] [%(processName)s %(threadName)s] [%(levelname)s] %(name)s: %(message)s"

/-- The default console format string (`console_fmt` in `_LogBus.start`). -/
def console_fmt : String :=
  "%(asctime)s %(levelname)s %(name)s: %(message)s"

theorem formatRecord_file_fmt_data (r : FRecord) :
    (formatRecord file_fmt r).data
      = '[' :: (r.asctime.data ++ (']' :: ' ' :: '[' ::
          (r.processName.data ++ (' ' :: (r.threadName.data ++ (']' :: ' ' :: '[' ::
            (r.levelname.data ++ (']' :: ' ' ::
              (r.name.data ++ (':' :: ' ' :: (r.message.data ++ []))))))))))) := rfl

theorem formatRecord_console_fmt_data (r : FRecord) :
    (formatRecord console_fmt r).data
      = r.asctime.data ++ (' ' :: (r.levelname.data ++ (' ' ::
          (r.name.data ++ (':' :: ' ' :: (r.message.data ++ [])))))) := rfl

/-- A concrete record as the pipeline would build it. -/
def c5rec : FRecord :=
  ⟨"2025-01-01 10:00:00", "MainProcess", "MainThread", "INFO", "svc", "hello"⟩

/-- C5 counterexample: the console sink does not render records in the
bracketed `[<timestamp>] [<process> <thread>] [<level>] <name>: <message>`
shape -- its configured format string has no brackets and no
process/thread fields. -/
theorem claim_C5_console_format_counterexample :
    ¬ (formatRecord console_fmt c5rec
        = "[" ++ c5rec.asctime ++ "] [" ++ c5rec.processName ++ " " ++ c5rec.threadName
            ++ "] [" ++ c5rec.levelname ++ "] " ++ c5rec.name ++ ": " ++ c5rec.message) := by
  decide

/-- C5 amended: every record written through the file format renders as
`[<timestamp>] [<process name> <thread name>] [<level name>] <stream>:
<message>`, while the console format renders the same record as
`<timestamp> <level name> <stream>: <message>` without brackets or
process/thread fields. -/
theorem claim_C5_amended_record_formats (r : FRecord) :
    formatRecord file_fmt r
      = "[" ++ r.asctime ++ "] [" ++ r.processName ++ " " ++ r.threadName
          ++ "] [" ++ r.levelname ++ "] " ++ r.name ++ ": " ++ r.message
    ∧ formatRecord console_fmt r
      = r.asctime ++ " " ++ r.levelname ++ " " ++ r.name ++ ": " ++ r.message := by
  constructor
  · apply String.ext
    rw [formatRecord_file_fmt_data]
    simp [String.data_append, List.append_assoc]
  · apply String.ext
    rw [formatRecord_console_fmt_data]
    simp [String.data_append, List.append_assoc]

/-- The keyword arguments of `_LogBus.start` (the configuration snapshot
installed by the first call). -/
structure Config where
  log_dir : String
  whenStr : String
  max_bytes : Nat
  backup_count : Nat
  fmt : String
  datefmt : String
  console : Bool
  console_level : Nat
  consoleFmt : String
  deriving DecidableEq

/-- The `LogHelper._defaults` configuration merged with the remaining
`_LogBus.start` defaults. -/
def defaultConfig : Config :=
  ⟨"logs", "midnight", 5 * 1024 * 1024, 30, file_fmt, "%Y-%m-%d %H:%M:%S",
    true, VERBOSE_LEVEL, console_fmt⟩

/-- `_LogBus` class state: the `_started` flag, the installed configuration
snapshot, the central queue (pending records in arrival order), the
per-stream file contents on disk, whether the `QueueListener` monitor
thread is running, the router's open sink names, and whether the `_stop`
hook has been registered with `atexit`. -/
structure BusState where
  started : Bool
  config : Option Config
  queue : List Ev
  files : String → List Ev
  listenerThread : Bool
  routerOpenSinks : List String
  stopRegistered : Bool

/-- Process state before any `_LogBus.start` call. -/
def initialBus : BusState :=
  ⟨false, none, [], fun _ => [], false, [], false⟩

/-- `_LogBus.start` (body of the `with cls._lock:` block, which serializes
concurrent first callers): return unchanged when `_started`; otherwise
create a fresh queue, a fresh router with no sinks, start the listener,
set `_started`, and register the `_stop` hook with `atexit`. Files already
on disk are untouched. -/
def startBus (cfg : Config) (s : BusState) : BusState :=
  if s.started then s
  else
    { started := true
      config := some cfg
      queue := []
      files := s.files
      listenerThread := true
      routerOpenSinks := []
      stopRegistered := true }

/-- The `_stop` closure registered with `atexit`: `listener.stop()` puts the
sentinel on the queue and joins the monitor thread, which first handles
every record enqueued before the sentinel (draining the queue into the
files); a second `stop()` raises on the cleared thread and is swallowed by
the surrounding `except`. Then `router.close()` closes every cached sink
and clears the handler dictionary. -/
def stopBus (s : BusState) : BusState :=
  let s1 :=
    if s.listenerThread then
      { s with
          queue := []
          files := s.queue.foldl monitorStep s.files
          listenerThread := false }
    else s
  { s1 with routerOpenSinks := [] }

theorem stopBus_idem (s : BusState) : stopBus (stopBus s) = stopBus s := by
  cases s with
  | mk st cfg q files lt ro sr => cases lt <;> simp [stopBus]

/-- C7: shutting down drains the backlog -- every record in the queue when
`_stop` runs is present in its stream's file afterwards and the queue is
sealed empty -- closes all router sinks, is idempotent (a second `_stop`
changes nothing), and `start` registers it to run at process exit. -/
theorem claim_C7_shutdown_drains_idempotent (s : BusState) (e : Ev) (cfg : Config)
    (hl : s.listenerThread = true) (he : e ∈ s.queue) :
    e ∈ (stopBus s).files e.stream
    ∧ (stopBus s).queue = []
    ∧ (stopBus s).routerOpenSinks = []
    ∧ stopBus (stopBus s) = stopBus s
    ∧ (startBus cfg initialBus).stopRegistered = true := by
  refine ⟨?_, ?_, ?_, stopBus_idem s, by simp [startBus, initialBus]⟩
  · have hf : (stopBus s).files e.stream
        = s.files e.stream ++ s.queue.filter (fun x => x.stream == e.stream) := by
      simp only [stopBus, hl, if_true]
      exact foldl_monitorStep s.queue s.files e.stream
    rw [hf]
    exact List.mem_append_right _ (List.mem_filter.mpr ⟨he, by simp⟩)
  · simp [stopBus, hl]
  · simp [stopBus]

/-- An INFO record pending in the queue at shutdown time. -/
def c7ev : Ev := ⟨1, "svc", INFO_LEVEL, "pending"⟩

/-- A started bus with one pending record. -/
def c7bus : BusState :=
  ⟨true, some defaultConfig, [c7ev], fun _ => [], true, ["svc"], true⟩

/-- Witness for C7: the pending record is in the `svc` file after `_stop`,
the queue and sink table are cleared, a second `_stop` is a no-op, and the
hook is registered by `start`. -/
theorem claim_C7_shutdown_drains_idempotent_witness :
    c7ev ∈ (stopBus c7bus).files c7ev.stream
    ∧ (stopBus c7bus).queue = []
    ∧ (stopBus c7bus).routerOpenSinks = []
    ∧ stopBus (stopBus c7bus) = stopBus c7bus
    ∧ (startBus defaultConfig initialBus).stopRegistered = true :=
  claim_C7_shutdown_drains_idempotent c7bus c7ev defaultConfig rfl (by simp [c7bus])

/-- C8: `start` is idempotent -- the first caller (serialized by the class
lock) installs the configuration and fresh pipeline state (empty queue,
running listener, empty router, registered stop hook), any later call
returns with all pipeline state unchanged. -/
theorem claim_C8_start_idempotent (cfg cfg2 : Config) (s : BusState) :
    startBus cfg2 (startBus cfg s) = startBus cfg s
    ∧ (startBus cfg s).started = true
    ∧ (s.started = false →
        (startBus cfg s).config = some cfg
        ∧ (startBus cfg s).queue = []
        ∧ (startBus cfg s).listenerThread = true
        ∧ (startBus cfg s).routerOpenSinks = []
        ∧ (startBus cfg s).stopRegistered = true)
    ∧ (s.started = true → startBus cfg s = s) := by
  cases hs : s.started <;> simp [startBus, hs]

/-- A second configuration differing from the default. -/
def c8cfg2 : Config :=
  ⟨"other", "midnight", 1024, 3, file_fmt, "%Y-%m-%d %H:%M:%S", false, INFO_LEVEL, console_fmt⟩

/-- Witness for C8: starting from the initial state, a second `start` with
a different configuration changes nothing and the first call installed its
configuration and pipeline state. -/
theorem claim_C8_start_idempotent_witness :
    startBus c8cfg2 (startBus defaultConfig initialBus) = startBus defaultConfig initialBus
    ∧ (startBus defaultConfig initialBus).started = true
    ∧ (startBus defaultConfig initialBus).config = some defaultConfig
    ∧ (startBus defaultConfig initialBus).queue = []
    ∧ (startBus defaultConfig initialBus).listenerThread = true
    ∧ (startBus defaultConfig initialBus).routerOpenSinks = []
    ∧ (startBus defaultConfig initialBus).stopRegistered = true := by
  have h := claim_C8_start_idempotent defaultConfig c8cfg2 initialBus
  have h3 := h.2.2.1 rfl
  exact ⟨h.1, h.2.1, h3.1, h3.2.1, h3.2.2.1, h3.2.2.2.1, h3.2.2.2.2⟩

/-- The body of `RouterHandler.emit`'s `try` block
(`self._get_or_create(record.name)` followed by `handler.emit(record)`):
either it delivers the record to the stream's file, or sink creation /
writing raises. `fail` is the environment's verdict for this call
(disk full, permission error, ...). -/
def routerEmitTry (files : String → List Ev) (e : Ev) (fail : Bool) :
    Except String (String → List Ev) :=
  if fail then Except.error "write error" else Except.ok (monitorStep files e)

/-- `RouterHandler.emit`: the `except Exception` clause catches any error
from the try block and reports it through `self.handleError(record)` (the
internal diagnostic path); the record is dropped for the file sink and the
call returns normally. The Bool records whether a diagnostic was emitted. -/
def routerEmit (files : String → List Ev) (e : Ev) (fail : Bool) :
    (String → List Ev) × Bool :=
  match routerEmitTry files e fail with
  | Except.ok f => (f, false)
  | Except.error _ => (files, true)

/-- The listener loop dispatching a trace of records, each paired with the
environment's failure verdict; `diags` counts `handleError` diagnostics. -/
def listenerLoop (files : String → List Ev) (diags : Nat) :
    List (Ev × Bool) → (String → List Ev) × Nat
  | [] => (files, diags)
  | (e, fail) :: rest =>
      let step := routerEmit files e fail
      listenerLoop step.1 (diags + (if step.2 then 1 else 0)) rest

/-- C9: every error raised while creating a sink or writing a record is
contained at the `RouterHandler.emit` boundary: the dispatch loop is a
total function that processes the entire trace, the resulting files are
exactly those obtained by delivering every non-failing record in order
(events after a failure are not lost), and each failing record produces
exactly one internal diagnostic and nothing else. -/
theorem claim_C9_errors_contained (trace : List (Ev × Bool)) (files : String → List Ev)
    (diags : Nat) :
    (listenerLoop files diags trace).1
        = ((trace.filter (fun p => !p.2)).map Prod.fst).foldl monitorStep files
    ∧ (listenerLoop files diags trace).2
        = diags + (trace.filter (fun p => p.2)).length := by
  induction trace generalizing files diags with
  | nil => simp [listenerLoop]
  | cons p t ih =>
      obtain ⟨e, fail⟩ := p
      cases fail with
      | false =>
          simpa [listenerLoop, routerEmit, routerEmitTry] using
            ih (monitorStep files e) diags
      | true =>
          refine ⟨?_, ?_⟩
          · simpa [listenerLoop, routerEmit, routerEmitTry] using (ih files (diags + 1)).1
          · have h2 := (ih files (diags + 1)).2
            simp only [listenerLoop, routerEmit, routerEmitTry, if_true] at h2 ⊢
            simp [h2]
            omega

/-- The kinds of handlers that can be attached to a logger;
`queueHandler q` is a `logging.handlers.QueueHandler` bound to queue `q`. -/
inductive PHandler where
  | queueHandler : Nat → PHandler
  | streamHandler : PHandler
  | fileHandler : PHandler
  deriving DecidableEq

/-- The `isinstance(h, _handlers.QueueHandler)` test. -/
def isQueueHandler : PHandler → Bool
  | PHandler.queueHandler _ => true
  | _ => false

/-- The handler-attachment step of `LogHelper.get_logger`: a fresh
`QueueHandler` on the bus queue is appended only when no existing handler
of the logger is a `QueueHandler`. -/
def getLoggerHandlers (hs : List PHandler) (qid : Nat) : List PHandler :=
  if hs.any isQueueHandler then hs else hs ++ [PHandler.queueHandler qid]

/-- `n` successive `LogHelper.get_logger` calls on the same logger. -/
def iterateGetLogger (qid : Nat) (hs : List PHandler) : Nat → List PHandler
  | 0 => hs
  | n + 1 => getLoggerHandlers (iterateGetLogger qid hs n) qid

/-- Number of `QueueHandler`s attached: when a record is handled, each of
them enqueues it once, so this is the number of copies enqueued per
record. -/
def countQueueHandlers (hs : List PHandler) : Nat := hs.countP (fun h => isQueueHandler h)

theorem getLoggerHandlers_stable (hs : List PHandler) (qid : Nat)
    (h : countQueueHandlers hs ≠ 0) : getLoggerHandlers hs qid = hs := by
  have hany : hs.any isQueueHandler = true := by
    rcases List.countP_pos_iff.mp (Nat.pos_of_ne_zero h) with ⟨a, ha, hpa⟩
    exact List.any_eq_true.mpr ⟨a, ha, hpa⟩
  simp [getLoggerHandlers, hany]

theorem getLoggerHandlers_fresh (hs : List PHandler) (qid : Nat)
    (h : countQueueHandlers hs = 0) :
    getLoggerHandlers hs qid = hs ++ [PHandler.queueHandler qid] := by
  have hany : hs.any isQueueHandler = false := by
    rw [← Bool.not_eq_true, List.any_eq_true]
    rintro ⟨a, ha, hpa⟩
    have := List.countP_eq_zero.mp h a ha
    simp [hpa] at this
  simp [getLoggerHandlers, hany]

/-- C10: on a logger with no `QueueHandler` attached, any positive number
of `get_logger` calls attaches exactly one `QueueHandler` (every call after
the first leaves the handler list unchanged), so each record the logger
handles is enqueued to the backlog exactly once. -/
theorem claim_C10_get_logger_idempotent (hs : List PHandler) (qid : Nat) (n : Nat)
    (h0 : countQueueHandlers hs = 0) (hn : 1 ≤ n) :
    countQueueHandlers (iterateGetLogger qid hs n) = 1
    ∧ iterateGetLogger qid hs n = getLoggerHandlers hs qid := by
  have hone : countQueueHandlers (getLoggerHandlers hs qid) = 1 := by
    rw [getLoggerHandlers_fresh hs qid h0]
    simp [countQueueHandlers, List.countP_append, isQueueHandler]
    simpa [countQueueHandlers] using h0
  obtain ⟨m, rfl⟩ : ∃ m, n = m + 1 := ⟨n - 1, by omega⟩
  clear hn
  induction m with
  | zero => exact ⟨hone, rfl⟩
  | succ k ih =>
      obtain ⟨ih1, ih2⟩ := ih
      have hstep : iterateGetLogger qid hs (k + 1 + 1)
          = iterateGetLogger qid hs (k + 1) := by
        show getLoggerHandlers (iterateGetLogger qid hs (k + 1)) qid
          = iterateGetLogger qid hs (k + 1)
        exact getLoggerHandlers_stable _ qid (by rw [ih1]; omega)
      rw [hstep]
      exact ⟨ih1, ih2⟩

/-- Witness for C10: three `get_logger` calls on a fresh logger leave
exactly one `QueueHandler`, the same list a single call produces. -/
theorem claim_C10_get_logger_idempotent_witness :
    countQueueHandlers (iterateGetLogger 0 [] 3) = 1
    ∧ iterateGetLogger 0 [] 3 = getLoggerHandlers [] 0 :=
  claim_C10_get_logger_idempotent [] 0 3 (by decide) (by decide)

end LogHelperModel
